import Mathlib

/-!
Shallow embedding of the annotation-consistency reconciliation subsystem of
the video-editing dataset repository: the literal-tag counter and segment
text extractor plus mismatch checker (detect_differences.py), the heuristic
anomaly detector (find_hallucinations.py), and the interactive
reconciliation edit pass with its dependent-field auto-clearing and atomic
CSV persistence (removehallucinations.py).

Python dynamic values are modelled by the inductive type `PyVal`; pandas
rows are association lists from column name to `PyVal`.  Machine floats are
modelled by rationals (the code only stores, compares to zero, and prints
them).  Library calls (`re.findall` on an escaped pattern, `json.loads`,
`ast.literal_eval`, `str.strip`, `str.lower`, `int()`, `float()`) are
modelled by executable Lean functions on character lists, each noted at its
definition.
-/

namespace VidSpec

/-- Dynamic Python value: None, float NaN, bool, int, float (as a rational),
string, list, and string-keyed dict. -/
inductive PyVal where
  | none : PyVal
  | nan : PyVal
  | bool (b : Bool) : PyVal
  | int (n : Int) : PyVal
  | rat (q : Rat) : PyVal
  | str (s : String) : PyVal
  | list (xs : List PyVal) : PyVal
  | dict (kvs : List (String × PyVal)) : PyVal
deriving Repr

/-- Characters stripped by Python `str.strip()` (ASCII whitespace). -/
def isPyWs (c : Char) : Bool :=
  c = ' ' || c = '\t' || c = '\n' || c = '\r' || c = '\x0b' || c = '\x0c'

/-- Model of Python `str.strip()` on a character list. -/
def stripL (cs : List Char) : List Char :=
  ((cs.dropWhile isPyWs).reverse.dropWhile isPyWs).reverse

/-- Model of Python `str.strip()`. -/
def stripStr (s : String) : String := ⟨stripL s.data⟩

/-- Model of Python `str.lower()` (ASCII case folding suffices here). -/
def lowerStr (s : String) : String := ⟨s.data.map Char.toLower⟩

/-- Model of `raw.replace("'", '"')` from extract_full_text: the pattern is a
single character, so the replacement is a character map. -/
def mapQuotesStr (s : String) : String :=
  ⟨s.data.map (fun c => if c = '\x27' then '\x22' else c)⟩

/-- Digit-list value, used by the `int()` / `float()` models. -/
def digitsVal (ds : List Char) : Option Nat :=
  if ds ≠ [] && ds.all Char.isDigit then
    some (ds.foldl (fun a c => a * 10 + (c.toNat - 48)) 0)
  else Option.none

/-- Model of Python `int(s)` on a string: strip whitespace, optional sign,
then decimal digits; anything else raises (returns `none` here). -/
def pyIntOfString (s : String) : Option Int :=
  match stripL s.data with
  | '-' :: ds => (digitsVal ds).map (fun n => -(n : Int))
  | '+' :: ds => (digitsVal ds).map (fun n => (n : Int))
  | ds => (digitsVal ds).map (fun n => (n : Int))

/-- Fractional-part value: digits after the decimal point as a rational. -/
def fracVal (ds : List Char) : Rat :=
  (ds.foldl (fun a c => a * 10 + (c.toNat - 48)) 0 : Int) / ((10 : Int) ^ ds.length : Int)

/-- Unsigned decimal number `digits[.digits]` with at least one digit. -/
def pyFloatBody (cs : List Char) : Option Rat :=
  let ip := cs.takeWhile Char.isDigit
  let rest := cs.dropWhile Char.isDigit
  match rest with
  | [] => (digitsVal ip).map (fun n => (n : Rat))
  | '.' :: fs =>
      if fs.all Char.isDigit && (ip ≠ [] || fs ≠ []) then
        some ((ip.foldl (fun a c => a * 10 + (c.toNat - 48)) 0 : Int) + fracVal fs)
      else Option.none
  | _ => Option.none

/-- Model of Python `float(s)` on a string, covering the plain decimal forms
the data uses (no exponents / inf / nan literals). -/
def pyFloatOfString (s : String) : Option Rat :=
  match stripL s.data with
  | '-' :: cs => (pyFloatBody cs).map (fun q => -q)
  | '+' :: cs => pyFloatBody cs
  | cs => pyFloatBody cs

/-- Truncation toward zero, as Python `int(float)`. -/
def truncRat (q : Rat) : Int :=
  if q < 0 then -((-q).floor) else q.floor

/-- Python `str()` of scalar values. -/
def scalarStr : PyVal → String
  | .none => "None"
  | .nan => "nan"
  | .bool true => "True"
  | .bool false => "False"
  | .int n => toString n
  | .rat q => if q.den = 1 then toString q.num ++ ".0" else toString q
  | _ => ""

/-- Python `repr()` with a structural-depth fuel (the data nests two levels
deep at most; the bound only exists to keep the recursion structural). -/
def pyReprF : Nat → PyVal → String
  | _, .str s => "\x27" ++ s ++ "\x27"
  | fu + 1, .list xs =>
      "[" ++ String.intercalate (", ") (xs.map (pyReprF fu)) ++ "]"
  | fu + 1, .dict kvs =>
      "\x7b" ++ String.intercalate (", ")
        (kvs.map (fun kv => "\x27" ++ kv.1 ++ "\x27: " ++ pyReprF fu kv.2)) ++ "\x7d"
  | 0, .list _ => "[?]"
  | 0, .dict _ => "\x7b?\x7d"
  | _, v => scalarStr v

/-- Python `str()` of any value (`str` is the identity on strings, `repr`
recursively inside containers). -/
def pyStr : PyVal → String
  | .str s => s
  | .list xs => pyReprF 100 (.list xs)
  | .dict kvs => pyReprF 100 (.dict kvs)
  | v => scalarStr v

/-- Python truthiness (`if t:`). -/
def pyTruthy : PyVal → Bool
  | .none => false
  | .nan => true
  | .bool b => b
  | .int n => n ≠ 0
  | .rat q => q ≠ 0
  | .str s => s ≠ ""
  | .list xs => !xs.isEmpty
  | .dict kvs => !kvs.isEmpty

/-- Model of `pd.isna` on a scalar cell: true exactly for None and NaN. -/
def isNa : PyVal → Bool
  | .none => true
  | .nan => true
  | _ => false

/-- Model of `pd.notna`. -/
def notNa (v : PyVal) : Bool := !(isNa v)

/-- Python scalar equality (`!=` in the boolean edit loop): numeric values
compare across bool/int/float, NaN is unequal to everything, strings and
None compare to themselves; containers are never compared by the code
modelled here. -/
def pyEq : PyVal → PyVal → Bool
  | .none, .none => true
  | .bool a, .bool b => a = b
  | .bool a, .int n => (if a then (1 : Int) else 0) = n
  | .int n, .bool a => n = (if a then (1 : Int) else 0)
  | .bool a, .rat q => (if a then (1 : Rat) else 0) = q
  | .rat q, .bool a => q = (if a then (1 : Rat) else 0)
  | .int n, .int m => n = m
  | .int n, .rat q => (n : Rat) = q
  | .rat q, .int n => q = (n : Rat)
  | .rat q, .rat r => q = r
  | .str s, .str t => s = t
  | _, _ => false

/-- A pandas row / Python dict: association list from column name to value. -/
def Row := List (String × PyVal)

/-- `row.get(key, default)`. -/
def rowGet (r : Row) (k : String) (d : PyVal) : PyVal :=
  match r.find? (fun kv => kv.1 == k) with
  | some kv => kv.2
  | Option.none => d

/-- `row[key] = v`. -/
def rowSet (r : Row) (k : String) (v : PyVal) : Row :=
  (k, v) :: r.filter (fun kv => !(kv.1 == k))

/-- Key-membership test (`key in dict`). -/
def rowHas (r : Row) (k : String) : Bool :=
  r.any (fun kv => kv.1 == k)

/-! ### detect_differences.py: literal tag counting and presence -/

/-- Model of `len(re.findall(re.escape(pat), text))`: the escaped pattern is
a literal string, so this is the left-to-right non-overlapping occurrence
count; the empty pattern matches at every position including the end, as
`re.findall` does.  The fuel is the scan position budget; `findallLit`
supplies an always-sufficient budget. -/
def findallLitF (pat : List Char) : Nat → List Char → Nat
  | _, [] => if pat.isEmpty then 1 else 0
  | 0, _ => 0
  | fu + 1, c :: rest =>
      if pat.isEmpty then 1 + findallLitF pat fu rest
      else if pat.isPrefixOf (c :: rest) then
        1 + findallLitF pat fu (rest.drop (pat.length - 1))
      else findallLitF pat fu rest

/-- Non-overlapping literal occurrence count, as `re.findall` on an escaped
pattern. -/
def findallLit (pat text : List Char) : Nat :=
  findallLitF pat text.length text

/-- Source `count_start_tags(text, start_tag)`:
`if not isinstance(text, str) or not text: return 0` then the literal
`re.findall` count. -/
def count_start_tags (text : PyVal) (start_tag : String) : Nat :=
  match text with
  | .str s => if s = "" then 0 else findallLit start_tag.data s.data
  | _ => 0

/-- Literal infix test on character lists. -/
def infixAt : List Char → List Char → Bool
  | pat, [] => pat.isEmpty
  | pat, c :: rest => pat.isPrefixOf (c :: rest) || infixAt pat rest

/-- Source `tag_present_literal(text, tag)`: literal `re.search`, i.e.
infix test, with the same non-string/empty guard. -/
def tag_present_literal (text : PyVal) (tag : String) : Bool :=
  match text with
  | .str s => if s = "" then false else infixAt tag.data s.data
  | _ => false

/-- Source `truthy(val)` from detect_differences.py. -/
def truthy (val : PyVal) : Bool :=
  match val with
  | .bool b => b
  | .none => false
  | v => (["true", "1", "yes", "y"] : List String).contains (lowerStr (stripStr (pyStr v)))

/-! ### detect_differences.py: segment parsing (`json.loads` /
`ast.literal_eval` models) -/

/-- Grammar configuration distinguishing `json.loads` (double-quoted
strings, `true`/`false`/`null`) from `ast.literal_eval` (either quote
style, `True`/`False`/`None`). -/
structure LitCfg where
  singleQuotes : Bool
  trueTok : String
  falseTok : String
  noneTok : String

def jsonCfg : LitCfg := ⟨false, "true", "false", "null"⟩

def astCfg : LitCfg := ⟨true, "True", "False", "None"⟩

/-- Whitespace skipped between tokens. -/
def skipWs (cs : List Char) : List Char := cs.dropWhile isPyWs

/-- Escape sequences accepted inside quoted strings. -/
def unescapeChar (c : Char) : Option Char :=
  if c = 'n' then some '\n'
  else if c = 't' then some '\t'
  else if c = 'r' then some '\r'
  else if c = '\x5c' then some '\x5c'
  else if c = '\x22' then some '\x22'
  else if c = '\x27' then some '\x27'
  else if c = '/' then some '/'
  else Option.none

/-- Body of a quoted string after the opening quote `q`; returns the
decoded characters and the remainder after the closing quote. -/
def strBody (q : Char) : List Char → Option (List Char × List Char)
  | [] => Option.none
  | c :: cs =>
      if c = q then some ([], cs)
      else if c = '\x5c' then
        match cs with
        | [] => Option.none
        | e :: cs2 =>
            match unescapeChar e with
            | some r => (strBody q cs2).map (fun br => (r :: br.1, br.2))
            | Option.none => Option.none
      else (strBody q cs).map (fun br => (c :: br.1, br.2))

/-- Integer token: optional sign then digits, rejected when a decimal point
follows (the narrative data holds no float literals; a float literal is
treated as a parse failure). -/
def intTok : List Char → Option (Int × List Char)
  | '-' :: cs =>
      let ds := cs.takeWhile Char.isDigit
      let rest := cs.dropWhile Char.isDigit
      match digitsVal ds, rest with
      | some _, '.' :: _ => Option.none
      | some n, r => some (-(n : Int), r)
      | Option.none, _ => Option.none
  | cs =>
      let ds := cs.takeWhile Char.isDigit
      let rest := cs.dropWhile Char.isDigit
      match digitsVal ds, rest with
      | some _, '.' :: _ => Option.none
      | some n, r => some ((n : Int), r)
      | Option.none, _ => Option.none

/-- Recursion mode of the structured-value reader: a value, the tail of a
list after `[`, or the tail of an object after `{`. -/
inductive PMode where
  | val : PMode
  | elems (acc : List PyVal) (first : Bool) : PMode
  | entries (acc : List (String × PyVal)) (first : Bool) : PMode

/-- Result of one reader step. -/
inductive PRes where
  | v (x : PyVal) : PRes
  | vs (xs : List PyVal) : PRes
  | es (kvs : List (String × PyVal)) : PRes

/-- Fueled reader for the common sub-grammar of `json.loads` and
`ast.literal_eval`: strings, integers, booleans, null/None, lists and
string-keyed objects, with strict end-of-input discipline (trailing
garbage is a failure, as in both Python functions). -/
def pRead (cfg : LitCfg) : Nat → PMode → List Char → Option (PRes × List Char)
  | 0, _, _ => Option.none
  | fu + 1, .val, cs =>
      let cs := skipWs cs
      match cs with
      | [] => Option.none
      | c :: rest =>
          if c = '\x22' then (strBody '\x22' rest).map (fun br => (.v (.str ⟨br.1⟩), br.2))
          else if c = '\x27' && cfg.singleQuotes then
            (strBody '\x27' rest).map (fun br => (.v (.str ⟨br.1⟩), br.2))
          else if c = '[' then
            (pRead cfg fu (.elems [] true) rest).bind (fun pr =>
              match pr.1 with
              | .vs xs => some (.v (.list xs), pr.2)
              | _ => Option.none)
          else if c = '\x7b' then
            (pRead cfg fu (.entries [] true) rest).bind (fun pr =>
              match pr.1 with
              | .es kvs => some (.v (.dict kvs), pr.2)
              | _ => Option.none)
          else if cfg.trueTok.data.isPrefixOf cs then
            some (.v (.bool true), cs.drop cfg.trueTok.length)
          else if cfg.falseTok.data.isPrefixOf cs then
            some (.v (.bool false), cs.drop cfg.falseTok.length)
          else if cfg.noneTok.data.isPrefixOf cs then
            some (.v .none, cs.drop cfg.noneTok.length)
          else
            (intTok cs).map (fun nr => (.v (.int nr.1), nr.2))
  | fu + 1, .elems acc first, cs =>
      let cs := skipWs cs
      match cs with
      | ']' :: rest => if first then some (.vs acc.reverse, rest) else Option.none
      | _ =>
          (pRead cfg fu .val cs).bind (fun pr =>
            match pr.1 with
            | .v x =>
                let r := skipWs pr.2
                match r with
                | ']' :: rest2 => some (.vs (x :: acc).reverse, rest2)
                | ',' :: rest2 => pRead cfg fu (.elems (x :: acc) false) rest2
                | _ => Option.none
            | _ => Option.none)
  | fu + 1, .entries acc first, cs =>
      let cs := skipWs cs
      match cs with
      | '\x7d' :: rest => if first then some (.es acc.reverse, rest) else Option.none
      | c :: rest =>
          let keyBody :=
            if c = '\x22' then strBody '\x22' rest
            else if c = '\x27' && cfg.singleQuotes then strBody '\x27' rest
            else Option.none
          keyBody.bind (fun kb =>
            match skipWs kb.2 with
            | ':' :: r2 =>
                (pRead cfg fu .val r2).bind (fun pr =>
                  match pr.1 with
                  | .v x =>
                      let r := skipWs pr.2
                      match r with
                      | '\x7d' :: rest2 => some (.es ((⟨kb.1⟩, x) :: acc).reverse, rest2)
                      | ',' :: rest2 => pRead cfg fu (.entries ((⟨kb.1⟩, x) :: acc) false) rest2
                      | _ => Option.none
                  | _ => Option.none)
            | _ => Option.none)
      | [] => Option.none

/-- Whole-input read: the value must consume everything up to trailing
whitespace. -/
def readAll (cfg : LitCfg) (s : String) : Option PyVal :=
  match pRead cfg (2 * s.length + 16) .val s.data with
  | some (.v x, rest) => if skipWs rest = [] then some x else Option.none
  | _ => Option.none

/-- Model of `json.loads` on the segment grammar. -/
def jsonLoads (s : String) : Option PyVal := readAll jsonCfg s

/-- Model of `ast.literal_eval` on the segment grammar. -/
def literalEval (s : String) : Option PyVal := readAll astCfg s

/-- `dict.get(key, default)` on a parsed object. -/
def dictGet (kvs : List (String × PyVal)) (k : String) (d : PyVal) : PyVal :=
  match kvs.find? (fun kv => kv.1 == k) with
  | some kv => kv.2
  | Option.none => d

/-- The parse stage of `extract_full_text`: strict parse after quote
normalization first, then the permissive literal parse. -/
def parseStage (raw : String) : Option PyVal :=
  match jsonLoads (mapQuotesStr raw) with
  | some p => some p
  | Option.none => literalEval raw

/-- The unwrap stage: a dict with a `segments` key is replaced by that
key's value. -/
def unwrapSegments (p : PyVal) : PyVal :=
  match p with
  | .dict kvs => if rowHas kvs ("segments") then dictGet kvs ("segments") (.list []) else .dict kvs
  | v => v

/-- The combine stage: per segment object, transcript then visual
description, kept when Python-truthy and stringified. -/
def buildParts : List PyVal → List String
  | [] => []
  | .dict kvs :: rest =>
      let t := dictGet kvs ("transcript") (.str "")
      let v := dictGet kvs ("visualDescription") (.str "")
      (if pyTruthy t then [pyStr t] else []) ++
        (if pyTruthy v then [pyStr v] else []) ++ buildParts rest
  | _ :: rest => buildParts rest

/-- Source `extract_full_text(segments_str)`. -/
def extract_full_text (segments_str : PyVal) : String :=
  match segments_str with
  | .str s =>
      if stripStr s = "" then "" else
      let raw := stripStr s
      match parseStage raw with
      | Option.none => ""
      | some p =>
          match unwrapSegments p with
          | .list segs => stripStr (String.intercalate (" ") (buildParts segs))
          | _ => ""
  | _ => ""

/-! ### detect_differences.py: the mismatch checker -/

/-- An effect definition from the `EFFECTS` table: count-style with a
predicted count column, boolean-style with paired start/end tags, or
boolean-style with a single tag. -/
inductive EffKind where
  | countCol (col : String) (startTag : String) : EffKind
  | boolPaired (col : String) (startTag : String) : EffKind
  | boolSingle (col : String) (tag : String) : EffKind

/-- The `EFFECTS` table, in source (insertion) order. -/
def EFFECTS : List (String × EffKind) :=
  [("b_roll", .countCol ("b_roll_count") ("[BROLL]")),
   ("animated", .countCol ("animated_graphics_count") ("[ANIMATED]")),
   ("tos", .boolPaired ("on_screen_text_present") ("[TOS]")),
   ("transition", .boolSingle ("transitions_present") ("[TRANSITION]")),
   ("sound_effect", .boolPaired ("sound_effects_present") ("[SOUND_EFFECT]")),
   ("background_music", .boolPaired ("background_music_present") ("[BACKGROUND_MUSIC]"))]

/-- Python `int(x)` on a cell value; `.error` models a raised exception. -/
def pyIntOf : PyVal → Except Unit Int
  | .int n => .ok n
  | .bool b => .ok (if b then 1 else 0)
  | .rat q => .ok (truncRat q)
  | .str s =>
      match pyIntOfString s with
      | some n => .ok n
      | Option.none => .error ()
  | _ => .error ()

/-- The checker's count coercion, from
`int(predicted_raw) if pd.notna(predicted_raw) and str(predicted_raw).strip() != "" else 0`. -/
def coercePred (v : PyVal) : Except Unit Int :=
  if notNa v && stripStr (pyStr v) ≠ "" then pyIntOf v else .ok 0

/-- The per-effect loop body of `check_effect_mismatches`, producing the
mismatch entries of one row; a raised coercion exception propagates. -/
def checkEffects (row : Row) (text : String) :
    List (String × EffKind) → Except Unit (List (String × PyVal × PyVal))
  | [] => .ok []
  | (key, .countCol col tag) :: rest => do
      let predicted ← coercePred (rowGet row col (.int 0))
      let placed : Int := count_start_tags (.str text) tag
      let tail ← checkEffects row text rest
      pure (if placed ≠ predicted then (key, .int predicted, .int placed) :: tail else tail)
  | (key, .boolPaired col tag) :: rest => do
      let predicted := truthy (rowGet row col (.bool false))
      let placed := count_start_tags (.str text) tag > 0
      let tail ← checkEffects row text rest
      pure (if placed ≠ predicted then (key, .bool predicted, .bool placed) :: tail else tail)
  | (key, .boolSingle col tag) :: rest => do
      let predicted := truthy (rowGet row col (.bool false))
      let placed := tag_present_literal (.str text) tag
      let tail ← checkEffects row text rest
      pure (if placed ≠ predicted then (key, .bool predicted, .bool placed) :: tail else tail)

/-- One iteration of the `check_effect_mismatches` row loop: the row id and
its mismatch entries. -/
def checkOneRow (idx : Nat) (row : Row) :
    Except Unit (PyVal × List (String × PyVal × PyVal)) := do
  let vid := rowGet row ("video_id") (.str ("row_" ++ toString idx))
  let text := extract_full_text (rowGet row ("edited script") (.str ""))
  let effs ← checkEffects row text EFFECTS
  pure (vid, effs)

/-- The `check_effect_mismatches` loop: iterates the rows read-only,
keeping a row's entry only when some effect mismatched
(`len(row_mismatches) > 1`), and hands the rows along unchanged. -/
def checkLoop (idx : Nat) :
    List Row → Except Unit (List (PyVal × List (String × PyVal × PyVal)) × List Row)
  | [] => .ok ([], [])
  | row :: rest =>
      match checkOneRow idx row with
      | .error e => .error e
      | .ok e =>
          match checkLoop (idx + 1) rest with
          | .error e2 => .error e2
          | .ok tail => .ok ((if !e.2.isEmpty then e :: tail.1 else tail.1), row :: tail.2)

/-- Source `check_effect_mismatches(df)`: the mismatch report together with
the dataset as left behind by the pass. -/
def check_effect_mismatches (rows : List Row) :
    Except Unit (List (PyVal × List (String × PyVal × PyVal)) × List Row) :=
  checkLoop 0 rows

/-! ### find_hallucinations.py: the anomaly detector -/

/-- Source `to_bool(x)`. -/
def to_bool (x : PyVal) : Bool :=
  match x with
  | .bool b => b
  | v =>
      if isNa v then false
      else (["true", "1", "yes", "y", "t"] : List String).contains (lowerStr (stripStr (pyStr v)))

/-- Source `to_int(x, default=0)`: `int(float(x))` with any exception
falling back to the default. -/
def to_int (x : PyVal) : Int :=
  match x with
  | .none => 0
  | .nan => 0
  | .int n => n
  | .rat q => truncRat q
  | .bool b => if b then 1 else 0
  | .str s =>
      match pyFloatOfString s with
      | some q => truncRat q
      | Option.none => 0
  | _ => 0

/-- Comma-split of a character list, as Python `s.split(",")`. -/
def splitComma : List Char → List (List Char)
  | [] => [[]]
  | c :: rest =>
      if c = ',' then [] :: splitComma rest
      else
        match splitComma rest with
        | [] => [[c]]
        | g :: gs => (c :: g) :: gs

/-- `[t.strip() for t in s.split(",") if t.strip()]`. -/
def commaSplitStrip (s : String) : List String :=
  (((splitComma s.data).map stripL).filter (fun g => !g.isEmpty)).map (fun g => (⟨g⟩ : String))

/-- `[str(it).strip() for it in xs if str(it).strip()]`. -/
def strippedStrs (xs : List PyVal) : List String :=
  ((xs.map (fun it => stripStr (pyStr it))).filter (fun t => t ≠ ""))

/-- Source `parse_list_like(x)`: actual lists, literal-list strings, or
comma-separated strings, normalized to a list of stripped strings. -/
def parse_list_like (x : PyVal) : List String :=
  match x with
  | .list xs => strippedStrs xs
  | v =>
      if isNa v then []
      else
        let s := stripStr (pyStr v)
        match literalEval s with
        | some (.list xs) => strippedStrs xs
        | _ => commaSplitStrip s

/-- The result record built by `find_anomalies_row`. -/
structure AnomalyResult where
  rule_sound_and_bgm : Bool
  rule_overuse_counts : Bool
  rule_text_conflict : Bool
  has_anomaly : Bool
  anomalies_joined : String
deriving Repr, DecidableEq

/-- Source `find_anomalies_row(row)`. -/
def find_anomalies_row (row : Row) : AnomalyResult :=
  let bgm := to_bool (rowGet row ("background_music_present") (.bool false))
  let sfx_present := to_bool (rowGet row ("sound_effects_present") (.bool false))
  let b_roll_count := to_int (rowGet row ("b_roll_count") (.int 0))
  let anim_count := to_int (rowGet row ("animated_graphics_count") (.int 0))
  let trans_count := to_int (rowGet row ("transitions_count") (.int 0))
  let sfx_count := to_int (rowGet row ("sound_effects_count") (.int 0))
  let text_types_raw := parse_list_like (rowGet row ("type_of_on_screen_text") (.list []))
  let text_types_lower := text_types_raw.map lowerStr
  let rule1 := bgm && sfx_present
  let a1 := if rule1 then ["Both sound effects and background music are present"] else []
  let overuse_fields :=
    (if b_roll_count > 5 then ["b_roll_count=" ++ toString b_roll_count] else []) ++
    (if anim_count > 5 then ["animated_graphics_count=" ++ toString anim_count] else []) ++
    (if trans_count > 5 then ["transitions_count=" ++ toString trans_count] else []) ++
    (if sfx_count > 5 then ["sound_effects_count=" ++ toString sfx_count] else [])
  let rule2 := overuse_fields.length > 0
  let a2 := if rule2 then ["High edit counts (>5): " ++ String.intercalate (", ") overuse_fields] else []
  let has_transcript_or_text :=
    text_types_lower.any (fun t =>
      (["transcript", "text on screen", "text-on-screen"] : List String).contains t)
  let has_specific_keywords :=
    text_types_lower.any (fun t =>
      (infixAt ("specific").data t.data && infixAt ("keyword").data t.data) || t == "specific keywords")
  let rule3 := has_transcript_or_text && has_specific_keywords
  let a3 := if rule3 then ["Both Transcript/Text-on-screen and Specific Keywords are present"] else []
  { rule_sound_and_bgm := rule1
    rule_overuse_counts := rule2
    rule_text_conflict := rule3
    has_anomaly := rule1 || rule2 || rule3
    anomalies_joined := String.intercalate ("; ") (a1 ++ a2 ++ a3) }

/-- The per-row identity used in the detector's output table: the
`video_id` column as a string when that column exists, else the row
index. -/
def anomalyId (idx : Nat) (row : Row) : PyVal :=
  if rowHas row ("video_id") then .str (pyStr (rowGet row ("video_id") .none)) else .int idx

/-- The unfiltered output table: one entry per input row. -/
def allAnomalyEntries (rows : List Row) : List (PyVal × AnomalyResult) :=
  (List.range rows.length).zip (rows.map find_anomalies_row) |>.map
    (fun p => (anomalyId p.1 ((rows.drop p.1).headD []) , p.2))

/-- Source `main` of find_hallucinations.py, at the point
`out[out["has_anomaly"] == True]`: only flagged entries are retained. -/
def anomalyReport (rows : List Row) : List (PyVal × AnomalyResult) :=
  (allAnomalyEntries rows).filter (fun e => e.2.has_anomaly)

/-- The detector run with the dataset handed along unchanged (the source
pass is read-only). -/
def detectorRun (rows : List Row) : List (PyVal × AnomalyResult) × List Row :=
  (anomalyReport rows, rows)

/-! ### removehallucinations.py: field tables and dependency graph -/

/-- The `DEPENDENTS` map: presence flag to the fields auto-cleared when it
is set false. -/
def DEPENDENTS : List (String × List String) :=
  [("shot_or_scene_changes_present",
     ["shot_or_scene_change_count", "average_interval_shot_or_scene_changes_seconds"]),
   ("b_roll_footage_present", ["b_roll_visuals", "b_roll_count"]),
   ("animated_graphics_present", ["types_of_animated_graphics", "animated_graphics_count"]),
   ("on_screen_text_present", ["type_of_on_screen_text"]),
   ("transitions_present", ["types_of_transitions", "transitions_count"]),
   ("voiceover_present", ["voiceover_type"]),
   ("background_music_present", []),
   ("sound_effects_present", ["sound_effects_type", "sound_effects_count"])]

def BOOL_FIELDS : List String :=
  ["shot_or_scene_changes_present", "b_roll_footage_present", "animated_graphics_present",
   "on_screen_text_present", "transitions_present", "voiceover_present",
   "background_music_present", "sound_effects_present"]

def INT_FIELDS : List String :=
  ["shot_or_scene_change_count", "b_roll_count", "animated_graphics_count",
   "transitions_count", "sound_effects_count"]

def FLOAT_FIELDS : List String :=
  ["average_interval_shot_or_scene_changes_seconds"]

def LIST_ENUM_FIELD_NAMES : List String :=
  ["b_roll_visuals", "types_of_animated_graphics", "type_of_on_screen_text",
   "types_of_transitions"]

def STRING_FIELDS : List String := ["sound_effects_type"]

def DEPENDENT_INT_FIELDS : List String :=
  ["shot_or_scene_change_count", "b_roll_count", "animated_graphics_count",
   "transitions_count", "sound_effects_count"]

def DEPENDENT_STRING_FIELDS : List String := ["sound_effects_type"]

/-- Enum member NAMES from constants.py (prompt_enum_list validates by
name). -/
def broll_type_names : List String := ["VIDEO", "IMAGE"]

def animated_graphics_type_names : List String := ["GIF", "STICKER", "CLIP", "MEME", "EMOJI"]

def text_type_names : List String := ["CTA", "TRANSCRIPT", "HOOK", "SPECIFICKEYWORDS"]

def transitions_names : List String :=
  ["FADE_TRANSITION", "SLIDE_TRANSITION", "WIPE_TRANSITION", "FLIP_TRANSITION",
   "CLOCKWIPE_TRANSITION", "IRIS_TRANSITION", "ZOOM_TRANSITION"]

/-- Source `apply_auto_clear(row, field, value)`: when a presence flag is
set false, reset each dependent to its shape default (0, 0.0, [], ""). -/
def apply_auto_clear (r : Row) (field : String) (value : Bool) : Row :=
  if value then r else
  match DEPENDENTS.find? (fun fd => fd.1 == field) with
  | Option.none => r
  | some fd =>
      fd.2.foldl (fun r dep =>
        rowSet r dep
          (if DEPENDENT_INT_FIELDS.contains dep then .int 0
           else if FLOAT_FIELDS.contains dep then .rat 0
           else if LIST_ENUM_FIELD_NAMES.contains dep then .list []
           else .str "")) r

/-- The shape default a dependent field is cleared to. -/
def isDepDefault (dep : String) (v : PyVal) : Bool :=
  if DEPENDENT_INT_FIELDS.contains dep then match v with | .int n => n == 0 | _ => false
  else if FLOAT_FIELDS.contains dep then match v with | .rat q => q == 0 | _ => false
  else if LIST_ENUM_FIELD_NAMES.contains dep then match v with | .list xs => xs.isEmpty | _ => false
  else match v with | .str s => s == "" | _ => false

/-- The Dependency Graph invariant: every presence flag holding `False` has
all its declared dependents at their empty/zero defaults. -/
def depsInvariant (r : Row) : Bool :=
  DEPENDENTS.all (fun fd =>
    match rowGet r fd.1 .none with
    | .bool false => fd.2.all (fun dep => isDepDefault dep (rowGet r dep .none))
    | _ => true)

/-! ### removehallucinations.py: the interactive edit pass

The operator is modelled as a queue of raw input lines; each prompt pops
one line and parses it exactly as the source prompt function does. -/

/-- Pop the next operator input line (empty when the script is
exhausted). -/
def nextInput : List String → String × List String
  | [] => ("", [])
  | s :: rest => (s, rest)

/-- Source `prompt_bool`. -/
def readBool (inputs : List String) : Option Bool × List String :=
  let p := nextInput inputs
  let t := lowerStr (stripStr p.1)
  (if t = "" then Option.none
   else if t = "y" || t = "yes" then some true
   else if t = "n" || t = "no" then some false
   else Option.none, p.2)

/-- Source `prompt_int`. -/
def readInt (inputs : List String) : Option Int × List String :=
  let p := nextInput inputs
  let t := stripStr p.1
  (if t = "" then Option.none else pyIntOfString t, p.2)

/-- Source `prompt_float`. -/
def readFloat (inputs : List String) : Option Rat × List String :=
  let p := nextInput inputs
  let t := stripStr p.1
  (if t = "" then Option.none else pyFloatOfString t, p.2)

/-- Source `prompt_str`. -/
def readStr (inputs : List String) : Option String × List String :=
  let p := nextInput inputs
  let t := stripStr p.1
  (if t = "" then Option.none else some t, p.2)

/-- Source `prompt_enum_list`: comma-separated names, invalid names
dropped; a non-empty answer always replaces the list (possibly with
`[]`). -/
def readEnumList (memberNames : List String) (inputs : List String) :
    Option (List String) × List String :=
  let p := nextInput inputs
  let t := stripStr p.1
  (if t = "" then Option.none
   else some ((commaSplitStrip t).filter (fun x => memberNames.contains x)), p.2)

/-- The per-record editing state: the working copy of the row, the change
log entries, and the remaining operator input lines. -/
structure EditSt where
  updated : Row
  changes : List (String × PyVal × PyVal)
  inputs : List String

/-- One iteration of the boolean loop (`# 1) Booleans first`): an answered
prompt that changes the value records the change, stores it, and runs the
auto-clear. -/
def boolStep (field : String) (st : EditSt) : EditSt :=
  let r := readBool st.inputs
  match r.1 with
  | Option.none => { st with inputs := r.2 }
  | some b =>
      let cur := rowGet st.updated field .none
      if pyEq (.bool b) cur then { st with inputs := r.2 }
      else
        { updated := apply_auto_clear (rowSet st.updated field (.bool b)) field b
          changes := st.changes ++ [(field, cur, .bool b)]
          inputs := r.2 }

/-- An int prompt writing `updated[field]` when answered; `dflt` is the
`.get` default used for the logged old value. -/
def intStep (field : String) (dflt : PyVal) (st : EditSt) : EditSt :=
  let r := readInt st.inputs
  match r.1 with
  | Option.none => { st with inputs := r.2 }
  | some v =>
      { updated := rowSet st.updated field (.int v)
        changes := st.changes ++ [(field, rowGet st.updated field dflt, .int v)]
        inputs := r.2 }

/-- A float prompt writing `updated[field]` when answered. -/
def floatStep (field : String) (dflt : PyVal) (st : EditSt) : EditSt :=
  let r := readFloat st.inputs
  match r.1 with
  | Option.none => { st with inputs := r.2 }
  | some q =>
      { updated := rowSet st.updated field (.rat q)
        changes := st.changes ++ [(field, rowGet st.updated field dflt, .rat q)]
        inputs := r.2 }

/-- A string prompt writing `updated[field]` when answered. -/
def strStep (field : String) (dflt : PyVal) (st : EditSt) : EditSt :=
  let r := readStr st.inputs
  match r.1 with
  | Option.none => { st with inputs := r.2 }
  | some s =>
      { updated := rowSet st.updated field (.str s)
        changes := st.changes ++ [(field, rowGet st.updated field dflt, .str s)]
        inputs := r.2 }

/-- An enum-list prompt writing `updated[field]` when answered. -/
def enumListStep (field : String) (memberNames : List String) (dflt : PyVal)
    (st : EditSt) : EditSt :=
  let r := readEnumList memberNames st.inputs
  match r.1 with
  | Option.none => { st with inputs := r.2 }
  | some names =>
      { updated := rowSet st.updated field (.list (names.map .str))
        changes := st.changes ++ [(field, rowGet st.updated field dflt, .list (names.map .str))]
        inputs := r.2 }

/-- A dependent block guarded by `if updated.get(flag):`. -/
def guarded (flag : String) (body : EditSt → EditSt) (st : EditSt) : EditSt :=
  if pyTruthy (rowGet st.updated flag .none) then body st else st

/-- The whole interactive edit pass over one record, lines 416-522 of
removehallucinations.py: booleans first (with auto-clear), then the
dependent blocks for each true presence flag, then the generic
string/int/float loops with their dependent-field skip sets (the float
loop has no skip set in the source). -/
def editPass (current : Row) (inputs : List String) : Row × List (String × PyVal × PyVal) :=
  let st0 : EditSt := ⟨current, [], inputs⟩
  let st1 := BOOL_FIELDS.foldl (fun st f => boolStep f st) st0
  let st2 := guarded ("shot_or_scene_changes_present")
    (fun st => floatStep ("average_interval_shot_or_scene_changes_seconds") .none
      (intStep ("shot_or_scene_change_count") .none st)) st1
  let st3 := guarded ("b_roll_footage_present")
    (fun st => enumListStep ("b_roll_visuals") broll_type_names (.list [])
      (intStep ("b_roll_count") .none st)) st2
  let st4 := guarded ("animated_graphics_present")
    (fun st => enumListStep ("types_of_animated_graphics") animated_graphics_type_names (.list [])
      (intStep ("animated_graphics_count") .none st)) st3
  let st5 := guarded ("on_screen_text_present")
    (fun st => enumListStep ("type_of_on_screen_text") text_type_names (.list []) st) st4
  let st6 := guarded ("transitions_present")
    (fun st => enumListStep ("types_of_transitions") transitions_names (.list [])
      (intStep ("transitions_count") .none st)) st5
  let st7 := guarded ("sound_effects_present")
    (fun st => strStep ("sound_effects_type") (.str "")
      (intStep ("sound_effects_count") .none st)) st6
  let st8 := STRING_FIELDS.foldl
    (fun st f => if DEPENDENT_STRING_FIELDS.contains f then st else strStep f (.str "") st) st7
  let st9 := INT_FIELDS.foldl
    (fun st f => if DEPENDENT_INT_FIELDS.contains f then st else intStep f (.int 0) st) st8
  let st10 := FLOAT_FIELDS.foldl (fun st f => floatStep f (.rat 0) st) st9
  (st10.updated, st10.changes)

/-! ### removehallucinations.py: atomic persistence -/

/-- A flat file system: path to full file content. -/
def Disk := List (String × String)

/-- Content at a path, when the file exists. -/
def diskGet (d : Disk) (p : String) : Option String :=
  (d.find? (fun e => e.1 == p)).map (fun e => e.2)

/-- The two primitive file operations the writer uses. -/
inductive FileOp where
  | write (path content : String) : FileOp
  | rename (src dst : String) : FileOp

/-- Effect of a completed operation; `rename` is the atomic `os.replace`. -/
def applyOp (d : Disk) : FileOp → Disk
  | .write p c => (p, c) :: d.filter (fun e => !(e.1 == p))
  | .rename s t =>
      match diskGet d s with
      | some c => (t, c) :: d.filter (fun e => !(e.1 == s) && !(e.1 == t))
      | Option.none => d

def applyOps (d : Disk) (ops : List FileOp) : Disk := ops.foldl applyOp d

/-- The temporary path `.{basename}.tmp` next to the output. -/
def tmpName (out : String) : String := "." ++ out ++ ".tmp"

/-- Source `atomic_write_csv` as its operation trace: write the temporary
file, then atomically swap it into place. -/
def atomicWriteOps (out content : String) : List FileOp :=
  [.write (tmpName out) content, .rename (tmpName out) out]

/-- Source `atomic_write_csv(df, out_path)` run to completion. -/
def atomic_write_csv (d : Disk) (out content : String) : Disk :=
  applyOps d (atomicWriteOps out content)

/-- Disks reachable when a trace of file operations is interrupted: crash
before the next operation, crash in the middle of a `write` (the target
holds arbitrary partial content), or continue past a completed operation.
A `rename` has no intermediate state: `os.replace` is atomic. -/
inductive Crashed : Disk → List FileOp → Disk → Prop
  | here (d : Disk) (ops : List FileOp) : Crashed d ops d
  | mid (d : Disk) (p c : String) (rest : List FileOp) (pre : String) :
      Crashed d (.write p c :: rest) (applyOp d (.write p pre))
  | step (d : Disk) (op : FileOp) (rest : List FileOp) (d2 : Disk) :
      Crashed (applyOp d op) rest d2 → Crashed d (op :: rest) d2

/-- The dataset serialization written after each record (its exact shape is
irrelevant to the persistence claims; what matters is that a complete
serialization of the current dataset is written). -/
def render (df : List Row) : String := pyStr (.list (df.map .dict))

/-- The reconciliation session's persistence skeleton: each reconciled
record applies its edit to the in-memory dataset and immediately rewrites
the full dataset atomically (`# ---- Save after each row (atomic) ----`). -/
def runSession (out : String) : List (List Row → List Row) → List Row × Disk → List Row × Disk
  | [], st => st
  | e :: rest, (df, disk) =>
      let df2 := e df
      runSession out rest (df2, atomic_write_csv disk out (render df2))

/-- The dataset after a list of per-record edits. -/
def applyEdits (edits : List (List Row → List Row)) (df : List Row) : List Row :=
  edits.foldl (fun d e => e d) df

/-! ### Specification-side definitions

These restate properties in the spec's own words, to be compared with the
source translations above. -/

/-- Number of non-overlapping literal occurrences of `pat` in a text, the
spec's notion for `count_start_tags`: scan left to right, count a match and
resume after it. -/
def specOcc (pat : List Char) : List Char → Nat
  | [] => 0
  | c :: rest =>
      if h : ¬pat.isEmpty ∧ pat.isPrefixOf (c :: rest) then
        1 + specOcc pat ((c :: rest).drop pat.length)
      else specOcc pat rest
termination_by l => l.length
decreasing_by
  · simp only [List.length_drop, List.length_cons]
    have hp : pat ≠ [] := by simpa [List.isEmpty_iff] using h.1
    have : 1 ≤ pat.length := List.length_pos.mpr hp
    omega
  · simp

/-- Spec rule R1: background music and sound effects both coerce true. -/
def ruleSoundSpec (row : Row) : Prop :=
  to_bool (rowGet row ("background_music_present") (.bool false)) = true ∧
    to_bool (rowGet row ("sound_effects_present") (.bool false)) = true

/-- Spec rule R2: any of the four count fields exceeds 5. -/
def ruleOveruseSpec (row : Row) : Prop :=
  5 < to_int (rowGet row ("b_roll_count") (.int 0)) ∨
    5 < to_int (rowGet row ("animated_graphics_count") (.int 0)) ∨
    5 < to_int (rowGet row ("transitions_count") (.int 0)) ∨
    5 < to_int (rowGet row ("sound_effects_count") (.int 0))

/-- Spec rule R3: the normalized `type_of_on_screen_text` set holds both a
transcript / text-on-screen term and a specific-keywords term. -/
def ruleConflictSpec (row : Row) : Prop :=
  let tl := (parse_list_like (rowGet row ("type_of_on_screen_text") (.list []))).map lowerStr
  (∃ t ∈ tl, t ∈ (["transcript", "text on screen", "text-on-screen"] : List String)) ∧
    (∃ t ∈ tl, (infixAt ("specific").data t.data && infixAt ("keyword").data t.data) = true ∨
      t = "specific keywords")

/-! ### Concrete inputs used by the witnesses and counterexamples -/

/-- A serialized one-segment sequence with transcript `a` and visual
description `b`. -/
def segListText : String :=
  "[\x7b\x22transcript\x22: \x22a\x22, \x22visualDescription\x22: \x22b\x22\x7d]"

/-- The same sequence wrapped under a `segments` key. -/
def segWrappedText : String := "\x7b\x22segments\x22: " ++ segListText ++ "\x7d"

/-- A segment whose transcript is the integer 0 (a falsy scalar). -/
def segZeroText : String :=
  "[\x7b\x22transcript\x22: 0, \x22visualDescription\x22: \x22b\x22\x7d]"

/-- A segment whose transcript is the nonzero integer 5 (a truthy
scalar). -/
def segFiveText : String :=
  "[\x7b\x22transcript\x22: 5, \x22visualDescription\x22: \x22b\x22\x7d]"

/-- A record predicting a transition with narrative text holding no
`[TRANSITION]` marker. -/
def transitionRow : Row := [("video_id", .str "v2"), ("transitions_present", .str "True")]

/-- A record whose count field holds a non-blank unparsable string. -/
def badCountRow : Row := [("b_roll_count", .str "abc")]

/-- A record under review whose scene-change flag is on with populated
dependents. -/
def sceneRow : Row :=
  [("video_id", .str "v1"),
   ("shot_or_scene_changes_present", .bool true),
   ("shot_or_scene_change_count", .int 3),
   ("average_interval_shot_or_scene_changes_seconds", .rat 2)]

/-- Operator input: answer `n` to the scene-change flag (triggering the
auto-clear), keep the other seven booleans, then answer `4` at the
generic float prompt that re-offers the just-cleared dependent. -/
def sceneInputs : List String := ["n", "", "", "", "", "", "", "", "4"]

/-- The same session keeping the generic float prompt untouched. -/
def sceneInputsKeep : List String := ["n", "", "", "", "", "", "", "", ""]

/-! ## Theorems -/

theorem findallLitF_eq_specOcc (pat : List Char) (hp : ¬pat.isEmpty) :
    ∀ (fu : Nat) (text : List Char), text.length ≤ fu →
      findallLitF pat fu text = specOcc pat text := by
  have hnil : pat ≠ [] := by simpa [List.isEmpty_iff] using hp
  have hpos : 0 < pat.length := List.length_pos.mpr hnil
  have hne : pat.isEmpty = false := by
    cases h : pat.isEmpty
    · rfl
    · exact absurd h hp
  intro fu
  induction fu with
  | zero =>
      intro text ht
      have : text = [] := List.length_eq_zero.mp (Nat.le_zero.mp ht)
      subst this
      simp [findallLitF, specOcc, hne]
  | succ fu ih =>
      intro text ht
      match text with
      | [] => simp [findallLitF, specOcc, hne]
      | c :: rest =>
          have hr : rest.length ≤ fu := by simpa using Nat.succ_le_succ_iff.mp ht
          rw [findallLitF, specOcc]
          by_cases hpre : pat.isPrefixOf (c :: rest)
          · have hdrop : (c :: rest).drop pat.length = rest.drop (pat.length - 1) := by
              obtain ⟨k, hk⟩ : ∃ k, pat.length = k + 1 := ⟨pat.length - 1, by omega⟩
              rw [hk, List.drop_succ_cons]
              simp
            rw [if_neg (by simp [hne]), if_pos hpre, dif_pos ⟨hp, hpre⟩, hdrop]
            congr 1
            apply ih
            have : (rest.drop (pat.length - 1)).length ≤ rest.length := by
              simp [List.length_drop]
            omega
          · rw [if_neg (by simp [hne]), if_neg hpre, dif_neg (by simp [hpre])]
            exact ih rest hr

/-- C4: for a nonempty tag, `count_start_tags` on a string equals the
number of non-overlapping literal occurrences of the tag; it returns 0 for
non-string input and for the empty string.  (End tags contribute nothing:
the function only ever scans for the tag it is given.) -/
theorem count_start_tags_spec :
    (∀ (s tag : String), tag ≠ "" →
        count_start_tags (.str s) tag = specOcc tag.data s.data) ∧
    (∀ (v : PyVal) (tag : String), (∀ s, v ≠ .str s) → count_start_tags v tag = 0) ∧
    (∀ tag : String, count_start_tags (.str "") tag = 0) := by
  refine ⟨?_, ?_, ?_⟩
  · intro s tag htag
    have hp : ¬tag.data.isEmpty := by
      intro h
      apply htag
      have hd : tag.data = [] := List.isEmpty_iff.mp h
      cases tag with
      | mk d =>
          have hd2 : d = [] := hd
          subst hd2
          rfl
    by_cases hs : s = ""
    · subst hs
      simp [count_start_tags, specOcc]
    · rw [count_start_tags, if_neg hs, findallLit]
      exact findallLitF_eq_specOcc tag.data hp s.data.length s.data (le_refl _)
  · intro v tag hv
    cases v with
    | str s => exact absurd rfl (hv s)
    | none => rfl
    | nan => rfl
    | bool b => rfl
    | int n => rfl
    | rat q => rfl
    | list xs => rfl
    | dict kvs => rfl
  · intro tag; rfl

/-- C4 witness: a concrete text with two `[BROLL]` openings and one end
tag. -/
theorem count_start_tags_spec_witness :
    ("[BROLL]" : String) ≠ "" ∧
      count_start_tags (.str "x [BROLL] y [BROLL][/BROLL]") ("[BROLL]") =
        specOcc ("[BROLL]" : String).data ("x [BROLL] y [BROLL][/BROLL]" : String).data :=
  ⟨by decide, count_start_tags_spec.1 ("x [BROLL] y [BROLL][/BROLL]") ("[BROLL]") (by decide)⟩

theorem containsDropT (x : String) (h : x ≠ "t") :
    (["true", "1", "yes", "y", "t"] : List String).contains x =
      (["true", "1", "yes", "y"] : List String).contains x := by
  simp [List.contains, List.elem_cons, h]

/-- C10: the detector coercion `to_bool` and the checker coercion `truthy`
disagree on (stripped, lowercased) "t" and agree on every value whose
string normalization is not "t". -/
theorem to_bool_truthy_divergence :
    (to_bool (.str "t") = true ∧ truthy (.str "t") = false) ∧
    (∀ v : PyVal, lowerStr (stripStr (pyStr v)) ≠ "t" → to_bool v = truthy v) := by
  refine ⟨⟨by decide, by decide⟩, ?_⟩
  intro v h
  cases v with
  | bool b => rfl
  | none => rfl
  | nan => decide
  | int n => exact containsDropT _ h
  | rat q => exact containsDropT _ h
  | str s => exact containsDropT _ h
  | list xs => exact containsDropT _ h
  | dict kvs => exact containsDropT _ h

/-- C10 witness: concrete agreement away from "t". -/
theorem to_bool_truthy_divergence_witness :
    lowerStr (stripStr (pyStr (.str "yes"))) ≠ "t" ∧
      to_bool (.str "yes") = truthy (.str "yes") :=
  ⟨by decide, to_bool_truthy_divergence.2 (.str "yes") (by decide)⟩

/-- C5: the boolean predictions use the tolerant truthy parser whose true
set is exactly case-insensitive true/1/yes/y of the stripped string form of
the value, and a record predicting transitions with no `[TRANSITION]`
marker in its text yields the mismatch entry
`("transition", (True, False))`. -/
theorem truthy_and_transition_mismatch :
    (∀ v : PyVal,
        truthy v =
          (["true", "1", "yes", "y"] : List String).contains (lowerStr (stripStr (pyStr v)))) ∧
    check_effect_mismatches [transitionRow] =
      .ok ([(.str "v2", [("transition", .bool true, .bool false)])], [transitionRow]) := by
  refine ⟨?_, rfl⟩
  intro v
  cases v with
  | bool b => cases b <;> decide
  | none => decide
  | nan => rfl
  | int n => rfl
  | rat q => rfl
  | str s => rfl
  | list xs => rfl
  | dict kvs => rfl

/-- C2 counterexample: a non-blank count field that does not parse as an
integer makes the coercion raise, and the raise propagates out of the
checker pass, instead of defaulting to 0. -/
theorem count_coercion_throws :
    coercePred (.str "abc") = .error () ∧
      check_effect_mismatches [badCountRow] = .error () :=
  ⟨rfl, rfl⟩

/-- C2 amended: the predicted count defaults to 0 exactly when the field is
missing (None/NaN) or blank after stringification, and passes integers
through; a non-blank string that does not parse as an integer raises
instead of defaulting. -/
theorem count_coercion_amended :
    (∀ v : PyVal, (notNa v = false ∨ stripStr (pyStr v) = "") → coercePred v = .ok 0) ∧
    (coercePred (.int 7) = .ok 7 ∧ coercePred (.int 0) = .ok 0) ∧
    (∀ s : String, stripStr s ≠ "" → pyIntOfString s = Option.none →
      coercePred (.str s) = .error ()) := by
  refine ⟨?_, ?_, ?_⟩
  · intro v h
    rcases h with h | h
    · simp [coercePred, h]
    · simp [coercePred, h]
  · exact ⟨rfl, rfl⟩
  · intro s h hnone
    simp [coercePred, notNa, isNa, pyStr, h, pyIntOf, hnone]

/-- C2 amended witness: NaN defaults to 0, "abc" raises. -/
theorem count_coercion_amended_witness :
    (notNa (.nan) = false ∨ stripStr (pyStr (.nan)) = "") ∧ coercePred (.nan) = .ok 0 ∧
      stripStr ("abc") ≠ "" ∧ pyIntOfString ("abc") = Option.none ∧
      coercePred (.str "abc") = .error () :=
  ⟨Or.inl (by decide), count_coercion_amended.1 (.nan) (Or.inl (by decide)),
   by decide, by decide, count_coercion_amended.2.2 ("abc") (by decide) (by decide)⟩

/-- C3: the one-segment serialization yields "a b", the `segments`-wrapped
form yields the same, and whenever both the strict parse (after quote
normalization) and the permissive literal parse fail, or the unwrapped
result is not list-shaped, the result is the empty string (the embedding is
a total function: no exception escapes). -/
theorem extract_full_text_roundtrip :
    extract_full_text (.str segListText) = "a b" ∧
    extract_full_text (.str segWrappedText) = "a b" ∧
    (∀ s : String, jsonLoads (mapQuotesStr (stripStr s)) = Option.none →
        literalEval (stripStr s) = Option.none → extract_full_text (.str s) = "") ∧
    (∀ (s : String) (p : PyVal), parseStage (stripStr s) = some p →
        (∀ xs, unwrapSegments p ≠ .list xs) → extract_full_text (.str s) = "") := by
  refine ⟨rfl, rfl, ?_, ?_⟩
  · intro s h1 h2
    by_cases hs : stripStr s = ""
    · simp [extract_full_text, hs]
    · simp [extract_full_text, hs, parseStage, h1, h2]
  · intro s p hp hnl
    by_cases hs : stripStr s = ""
    · simp [extract_full_text, hs]
    · cases hu : unwrapSegments p with
      | list xs => exact absurd hu (hnl xs)
      | none => simp [extract_full_text, hs, hp, hu]
      | nan => simp [extract_full_text, hs, hp, hu]
      | bool b => simp [extract_full_text, hs, hp, hu]
      | int n => simp [extract_full_text, hs, hp, hu]
      | rat q => simp [extract_full_text, hs, hp, hu]
      | str t => simp [extract_full_text, hs, hp, hu]
      | dict kvs => simp [extract_full_text, hs, hp, hu]

/-- C3 witness: unparsable input and non-list-shaped input both give "". -/
theorem extract_full_text_roundtrip_witness :
    (jsonLoads (mapQuotesStr (stripStr ("@@not parseable"))) = Option.none ∧
      literalEval (stripStr ("@@not parseable")) = Option.none ∧
      extract_full_text (.str "@@not parseable") = "") ∧
    (parseStage (stripStr ("42")) = some (.int 42) ∧
      extract_full_text (.str "42") = "") :=
  ⟨⟨rfl, rfl, extract_full_text_roundtrip.2.2.1 ("@@not parseable") rfl rfl⟩,
   ⟨rfl, extract_full_text_roundtrip.2.2.2 ("42") (.int 42) rfl
     (fun _ h => PyVal.noConfusion h)⟩⟩

/-- C8 counterexample: a segment whose transcript is the integer 0 loses
that value entirely (Python truthiness filters it), so the output is "b"
and not the "0 b" the claim requires. -/
theorem zero_transcript_dropped :
    extract_full_text (.str segZeroText) = "b" ∧
      extract_full_text (.str segZeroText) ≠ "0 b" :=
  ⟨rfl, by decide⟩

/-- C8 amended: per segment, the transcript then the visual description are
contributed in order, each stringified, but only when Python-truthy: a
falsy scalar such as the integer 0 is dropped; nonzero integers are
stringified and included. -/
theorem segment_contribution_amended :
    (∀ (kvs : List (String × PyVal)) (rest : List PyVal),
        buildParts (.dict kvs :: rest) =
          (if pyTruthy (dictGet kvs ("transcript") (.str "")) then
              [pyStr (dictGet kvs ("transcript") (.str ""))] else []) ++
            (if pyTruthy (dictGet kvs ("visualDescription") (.str "")) then
              [pyStr (dictGet kvs ("visualDescription") (.str ""))] else []) ++
            buildParts rest) ∧
    pyTruthy (.int 0) = false ∧
    (∀ n : Int, n ≠ 0 → pyTruthy (.int n) = true) ∧
    (∀ n : Int, pyStr (.int n) = toString n) ∧
    extract_full_text (.str segFiveText) = "5 b" := by
  refine ⟨fun kvs rest => rfl, rfl, ?_, fun n => rfl, rfl⟩
  intro n h
  simp [pyTruthy, h]

/-- C8 amended witness: the nonzero integer 5 is truthy and kept. -/
theorem segment_contribution_amended_witness :
    (5 : Int) ≠ 0 ∧ pyTruthy (.int 5) = true :=
  ⟨by decide, segment_contribution_amended.2.2.1 5 (by decide)⟩

theorem lenIfSingleton (c1 c2 c3 c4 : Prop) [Decidable c1] [Decidable c2]
    [Decidable c3] [Decidable c4] (s1 s2 s3 s4 : String) :
    0 < ((if c1 then [s1] else []) ++ (if c2 then [s2] else []) ++
        (if c3 then [s3] else []) ++ (if c4 then [s4] else [])).length ↔
      (c1 ∨ c2 ∨ c3 ∨ c4) := by
  by_cases h1 : c1 <;> by_cases h2 : c2 <;> by_cases h3 : c3 <;> by_cases h4 : c4 <;>
    simp [h1, h2, h3, h4]

/-- C6: a record is flagged iff rule R1, R2 or R3 holds of it, and the
output report retains exactly the flagged entries. -/
theorem anomaly_flagging_spec :
    (∀ row : Row,
        (find_anomalies_row row).has_anomaly = true ↔
          (ruleSoundSpec row ∨ ruleOveruseSpec row ∨ ruleConflictSpec row)) ∧
    (∀ (rows : List Row) (e : PyVal × AnomalyResult),
        e ∈ anomalyReport rows ↔ e ∈ allAnomalyEntries rows ∧ e.2.has_anomaly = true) := by
  constructor
  · intro row
    simp only [find_anomalies_row, ruleSoundSpec, ruleOveruseSpec, ruleConflictSpec,
      Bool.or_eq_true, Bool.and_eq_true, List.any_eq_true, List.contains,
      List.elem_eq_mem, decide_eq_true_eq, beq_iff_eq, gt_iff_lt]
    rw [lenIfSingleton, or_assoc]
  · intro rows e
    simp [anomalyReport, List.mem_filter]

theorem checkLoop_rows (rows : List Row) :
    ∀ (idx : Nat) (res : List (PyVal × List (String × PyVal × PyVal)) × List Row),
      checkLoop idx rows = .ok res → res.2 = rows := by
  induction rows with
  | nil =>
      intro idx res h
      simp [checkLoop] at h
      simp [← h]
  | cons row rest ih =>
      intro idx res h
      rw [checkLoop] at h
      cases he : checkOneRow idx row with
      | error e => rw [he] at h; simp at h
      | ok e =>
          rw [he] at h
          cases ht : checkLoop (idx + 1) rest with
          | error e2 => rw [ht] at h; simp at h
          | ok tail =>
              rw [ht] at h
              simp at h
              have h2 := ih (idx + 1) tail ht
              rw [← h]
              simpa using h2

/-- C9: the checker and detector passes hand every input record through
unchanged, and rerunning either on its own output dataset reproduces the
same report. -/
theorem checker_detector_pure_idempotent :
    (∀ (rows : List Row) (res : List (PyVal × List (String × PyVal × PyVal)) × List Row),
        check_effect_mismatches rows = .ok res →
          res.2 = rows ∧ check_effect_mismatches res.2 = .ok res) ∧
    (∀ rows : List Row,
        (detectorRun rows).2 = rows ∧ detectorRun ((detectorRun rows).2) = detectorRun rows) := by
  constructor
  · intro rows res h
    have h2 := checkLoop_rows rows 0 res h
    refine ⟨h2, ?_⟩
    rw [check_effect_mismatches, h2]
    exact h
  · intro rows
    exact ⟨rfl, rfl⟩

/-- C9 witness: a concrete one-row run, rerun on its returned dataset. -/
theorem checker_detector_pure_idempotent_witness :
    (([(PyVal.str "v2", [("transition", PyVal.bool true, PyVal.bool false)])],
        [transitionRow]).2 = [transitionRow]) ∧
      check_effect_mismatches
          (([(PyVal.str "v2", [("transition", PyVal.bool true, PyVal.bool false)])],
            [transitionRow]).2) =
        .ok ([(PyVal.str "v2", [("transition", PyVal.bool true, PyVal.bool false)])],
          [transitionRow]) :=
  checker_detector_pure_idempotent.1 [transitionRow] _ rfl

set_option maxRecDepth 16384 in
/-- C1 (code bug witness): after the boolean loop sets the scene-change
flag false and auto-clears its dependents, the generic float loop -- which
has no dependent-skip set, unlike the int and string loops -- re-offers
`average_interval_shot_or_scene_changes_seconds`; an answered prompt leaves
a false flag with a nonzero dependent, breaking the Dependency Graph
invariant.  With that prompt kept empty, the invariant holds. -/
theorem dependent_float_reprompt_breaks_invariant :
    rowGet (editPass sceneRow sceneInputs).1 ("shot_or_scene_changes_present") .none =
        .bool false ∧
      rowGet (editPass sceneRow sceneInputs).1
          ("average_interval_shot_or_scene_changes_seconds") .none = .rat 4 ∧
      depsInvariant (editPass sceneRow sceneInputs).1 = false ∧
      depsInvariant (editPass sceneRow sceneInputsKeep).1 = true :=
  ⟨rfl, rfl, rfl, rfl⟩

theorem find_filter_ne (q p : String) (hqp : q ≠ p) (d : List (String × String)) :
    List.find? (fun e => e.1 == q) (List.filter (fun e => !(e.1 == p)) d) =
      List.find? (fun e => e.1 == q) d := by
  have hpq : (p == q) = false := by
    simp only [beq_eq_false_iff_ne]
    exact fun hh => hqp hh.symm
  induction d with
  | nil => rfl
  | cons e d ih =>
      by_cases h1 : e.1 = p
      · simp [List.filter_cons, List.find?_cons, h1, hpq, ih]
      · have hep : (e.1 == p) = false := by simpa using h1
        by_cases h2 : e.1 = q
        · simp [List.filter_cons, List.find?_cons, hep, h2, hqp]
        · have heq : (e.1 == q) = false := by simpa using h2
          simp [List.filter_cons, List.find?_cons, hep, heq, ih]

theorem tmpName_ne (out : String) : tmpName out ≠ out := by
  intro h
  have hl := congrArg String.length h
  rw [tmpName, String.length_append, String.length_append] at hl
  have e1 : ("." : String).length = 1 := rfl
  have e2 : (".tmp" : String).length = 4 := rfl
  rw [e1, e2] at hl
  omega

theorem diskGet_write_other (d : Disk) (out p content : String) (hne : p ≠ out) :
    diskGet (applyOp d (.write p content)) out = diskGet d out := by
  have hq : (p == out) = false := by simpa using hne
  rw [applyOp]
  rw [diskGet, List.find?_cons]
  simp only [hq]
  rw [find_filter_ne out p (fun hh => hne hh.symm)]
  rfl

theorem diskGet_atomic (d : Disk) (out content : String) :
    diskGet (atomic_write_csv d out content) out = some content := by
  rw [atomic_write_csv, atomicWriteOps, applyOps]
  simp only [List.foldl_cons, List.foldl_nil]
  simp [applyOp, diskGet, List.find?_cons]

/-- C7: the session applies each record edit to the in-memory dataset and
immediately persists the full dataset with a temp-file write plus atomic
swap; after any nonempty prefix of records the output path holds exactly
the serialization of the dataset with those records' edits applied, and a
crash anywhere inside one atomic write leaves the output path holding
either the previous complete serialization or the new one, never partial
content. -/
theorem session_persistence_crash_safety :
    (∀ (out : String) (edits : List (List Row → List Row)) (df : List Row) (disk : Disk),
        (runSession out edits (df, disk)).1 = applyEdits edits df) ∧
    (∀ (out : String) (edits : List (List Row → List Row)) (df : List Row) (disk : Disk),
        edits ≠ [] →
          diskGet (runSession out edits (df, disk)).2 out =
            some (render (applyEdits edits df))) ∧
    (∀ (out content : String) (d d2 : Disk),
        Crashed d (atomicWriteOps out content) d2 →
          diskGet d2 out = diskGet d out ∨ diskGet d2 out = some content) := by
  refine ⟨?_, ?_, ?_⟩
  · intro out edits
    induction edits with
    | nil => intro df disk; rfl
    | cons e rest ih =>
        intro df disk
        rw [runSession, applyEdits, List.foldl_cons]
        exact ih (e df) _
  · intro out edits
    induction edits with
    | nil => intro df disk h; exact absurd rfl h
    | cons e rest ih =>
        intro df disk _
        match rest with
        | [] =>
            rw [runSession, runSession, applyEdits, List.foldl_cons, List.foldl_nil]
            exact diskGet_atomic disk out (render (e df))
        | e2 :: rest2 =>
            rw [runSession, applyEdits, List.foldl_cons]
            exact ih (e df) _ (by simp)
  · intro out content d d2 h
    cases h with
    | here => exact Or.inl rfl
    | mid _ p c rest pre =>
        exact Or.inl (diskGet_write_other d out (tmpName out) pre (tmpName_ne out))
    | step _ op rest d3 h2 =>
        cases h2 with
        | here =>
            exact Or.inl (diskGet_write_other d out (tmpName out) content (tmpName_ne out))
        | step _ op2 rest2 d4 h3 =>
            cases h3 with
            | here =>
                right
                exact diskGet_atomic d out content

/-- C7 witness: a one-record session persists the rendered dataset, and the
crash-before-anything state keeps the old content. -/
theorem session_persistence_crash_safety_witness :
    (([fun (df : List Row) => df] : List (List Row → List Row)) ≠ [] ∧
      diskGet (runSession ("o.csv") [fun df => df] ([], [])).2 ("o.csv") =
        some (render (applyEdits [fun df => df] []))) ∧
    (diskGet ([] : Disk) ("o.csv") = diskGet ([] : Disk) ("o.csv") ∨
      diskGet ([] : Disk) ("o.csv") = some ("x")) :=
  ⟨⟨by simp,
    session_persistence_crash_safety.2.1 ("o.csv") [fun df => df] [] [] (by simp)⟩,
    session_persistence_crash_safety.2.2 ("o.csv") ("x") [] []
      (Crashed.here [] (atomicWriteOps ("o.csv") ("x")))⟩

end VidSpec
